import Mathlib

/-!
# Verification of the GenVolt RBAC / hierarchical data-isolation engine

Shallow embedding of the backend `PermissionService` class
(`GenVolt_Webapp/backend/tests/test_sessions.js`, second document:
`backend/src/services/permissionService.js`).  Database queries are
modelled over explicit table values; the in-memory permission cache is
modelled by explicit state passing; `Date.now()` is an explicit `now`
argument in milliseconds.  JavaScript falsiness of a string is equality
with `""`; falsiness of a numeric id is absence (`none`) or `0`.
-/

namespace GenVolt

/-- One row of the `dashboards` table (columns used by the service). -/
structure DashboardRow where
  id : Nat
  name : String
  display_name : String
  is_active : Bool
deriving DecidableEq, Repr

/-- One row of the `role_permissions` table. -/
structure RolePermRow where
  role_name : String
  dashboard_id : Nat
  can_access : Bool
  can_edit : Bool
  can_delete : Bool
deriving DecidableEq, Repr

/-- The permission-matrix side of the database. -/
structure PermDb where
  role_permissions : List RolePermRow
  dashboards : List DashboardRow
deriving DecidableEq, Repr

/-- A row of the SQL join in `getUserPermissions`:
`SELECT rp.dashboard_id, rp.can_access, d.name, d.display_name`. -/
structure JoinedPermRow where
  dashboard_id : Nat
  can_access : Bool
  dashboard_name : String
  dashboard_display_name : String
deriving DecidableEq, Repr

/-- The SQL query of `getUserPermissions`:
`FROM role_permissions rp JOIN dashboards d ON rp.dashboard_id = d.id
 WHERE rp.role_name = @role AND d.is_active = 1 AND rp.can_access = 1`. -/
def queryRolePermissions (role : String) (db : PermDb) : List JoinedPermRow :=
  db.role_permissions.flatMap fun rp =>
    (db.dashboards.filter fun d =>
        rp.dashboard_id == d.id && rp.role_name == role
          && d.is_active && rp.can_access).map fun d =>
      { dashboard_id := rp.dashboard_id
        can_access := rp.can_access
        dashboard_name := d.name
        dashboard_display_name := d.display_name }

/-- The value stored under a dashboard name in the permission object. -/
structure PermValue where
  dashboard_id : Nat
  can_access : Bool
  display_name : String
deriving DecidableEq, Repr

/-- The JS object `permissionObj`, keyed by dashboard name. -/
def PermMap := String → Option PermValue

/-- The empty JS object `{}`. -/
def emptyPermMap : PermMap := fun _ => none

/-- `permissionObj[perm.dashboard_name] = {...}`: JS property assignment. -/
def permMapSet (m : PermMap) (k : String) (v : PermValue) : PermMap :=
  fun k' => if k' = k then some v else m k'

/-- One iteration of the `permissions.forEach(...)` loop. -/
def permInsert (m : PermMap) (perm : JoinedPermRow) : PermMap :=
  permMapSet m perm.dashboard_name
    { dashboard_id := perm.dashboard_id
      can_access := perm.can_access
      display_name := perm.dashboard_display_name }

/-- The `permissions.forEach(...)` loop building `permissionObj`. -/
def buildPermissionObj (rows : List JoinedPermRow) : PermMap :=
  rows.foldl permInsert emptyPermMap

/-- One entry of the permission cache: `{permissions, timestamp}`. -/
structure CacheEntry where
  permissions : PermMap
  timestamp : Nat

/-- The static `permissionCache` JS `Map`, keyed by cache-key string. -/
def PermCache := String → Option CacheEntry

/-- A fresh, empty cache. -/
def emptyPermCache : PermCache := fun _ => none

/-- `static cacheTimeout = 5 * 60 * 1000` (milliseconds). -/
def cacheTimeout : Nat := 5 * 60 * 1000

/-- The cache key: `` `permissions_${role}` ``. -/
def cacheKey (role : String) : String := "permissions_" ++ role

/-- `this.permissionCache.set(key, entry)`. -/
def cacheSet (c : PermCache) (k : String) (e : CacheEntry) : PermCache :=
  fun k' => if k' = k then some e else c k'

/-- The cache probe of `getUserPermissions`: return the cached map when an
entry exists and `Date.now() - cached.timestamp < this.cacheTimeout`. -/
def cacheLookup (c : PermCache) (role : String) (now : Nat) : Option PermMap :=
  match c (cacheKey role) with
  | some e => if now - e.timestamp < cacheTimeout then some e.permissions else none
  | none => none

/-- Result of one `getUserPermissions` call: the returned object, the cache
state after the call, and how many storage reads the call performed. -/
structure PermFetchResult where
  permissions : PermMap
  cache : PermCache
  storageReads : Nat

/-- `PermissionService.getUserPermissions(role)`.  The storage read outcome
for this call is `db : Except String PermDb` (`Except.error` is a rejected
`database.query` promise, caught by the `catch` block which logs and
returns `{}`). -/
def getUserPermissions (role : String) (db : Except String PermDb)
    (cache : PermCache) (now : Nat) : PermFetchResult :=
  if role = "" then
    { permissions := emptyPermMap, cache := cache, storageReads := 0 }
  else
    match cacheLookup cache role now with
    | some p => { permissions := p, cache := cache, storageReads := 0 }
    | none =>
      match db with
      | Except.error _ =>
        { permissions := emptyPermMap, cache := cache, storageReads := 1 }
      | Except.ok pdb =>
        let obj := buildPermissionObj (queryRolePermissions role pdb)
        { permissions := obj
          cache := cacheSet cache (cacheKey role)
            { permissions := obj, timestamp := now }
          storageReads := 1 }

/-- `PermissionService.hasPermission(role, dashboardName)`:
guard on falsy arguments, unconditional admin bypass, then
`permissions[dashboardName]?.can_access === true`. -/
def hasPermission (role dashboardName : String) (db : Except String PermDb)
    (cache : PermCache) (now : Nat) : Bool :=
  if role = "" || dashboardName = "" then false
  else if role = "admin" then true
  else
    match (getUserPermissions role db cache now).permissions dashboardName with
    | some v => v.can_access
    | none => false

/-- `PermissionService.clearCache(role = null)`. -/
def clearCache (role : Option String) (cache : PermCache) : PermCache :=
  match role with
  | some r => fun k => if k = cacheKey r then none else cache k
  | none => fun _ => none

/-- JS `haystack.includes(needle)`: contiguous-substring containment,
over the underlying character lists. -/
def strIncludes (haystack needle : String) : Bool :=
  (List.range (haystack.data.length + 1)).any fun i =>
    needle.data.isPrefixOf (haystack.data.drop i)

/-- One row of the `client` table (the columns the resolver consults).

Modelled from the spec: the DDL and population code for the `client`
hierarchy columns is not among the sources, and spec §3 defines
`hierarchy_path` as "ancestor id chain, root→self"; it is modelled here
as that id chain (`List Nat`), and the SQL prefix match
`hierarchy_path LIKE (SELECT hierarchy_path + '%' ...)` over the rendered
path column is modelled as chain-prefix (`List.isPrefixOf`), exact for a
rendering that delimits every id. -/
structure ClientRow where
  id : Nat
  parent_client_id : Option Nat
  hierarchy_path : List Nat
  is_active : Bool
deriving DecidableEq, Repr

/-- One row of the `users` table (the columns the resolver consults). -/
structure UserRow where
  id : Nat
  roles : String
  client_id : Option Nat
  can_manage_hierarchy : Bool
deriving DecidableEq, Repr

/-- JS truthiness of `userInfo.client_id` (NULL and 0 are falsy). -/
def truthyId : Option Nat → Bool
  | some c => c != 0
  | none => false

/-- The branch-admin SQL of `getAccessibleClients`:
`WHERE is_active = 1 AND (id = @clientId OR hierarchy_path LIKE
 (SELECT hierarchy_path + '%' FROM client WHERE id = @clientId))`.
When no row has id `clientId` the scalar subquery yields NULL and
`LIKE NULL` matches nothing, so no row qualifies. -/
def branchClientsQuery (clients : List ClientRow) (clientId : Nat) :
    List ClientRow :=
  match clients.find? (fun c => c.id == clientId) with
  | some cRow =>
    clients.filter fun x =>
      x.is_active && (x.id == clientId
        || cRow.hierarchy_path.isPrefixOf x.hierarchy_path)
  | none => []

/-- The regular-user SQL of `getAccessibleClients`:
`WHERE id = @clientId AND is_active = 1`. -/
def singleClientQuery (clients : List ClientRow) (clientId : Nat) :
    List ClientRow :=
  clients.filter fun x => x.id == clientId && x.is_active

/-- `PermissionService.getAccessibleClients(userId)` over explicit `users`
and `client` tables.  The admin branch runs `SELECT ... FROM client` with
no WHERE clause; `ORDER BY hierarchy_path` is dropped (every verified
property is order-insensitive). -/
def getAccessibleClients (userId : Nat) (users : List UserRow)
    (clients : List ClientRow) : List ClientRow :=
  if userId = 0 then []
  else
    match users.find? (fun u => u.id == userId) with
    | none => []
    | some u =>
      if u.roles = "admin" then clients
      else
        match u.client_id with
        | some cid =>
          if cid != 0 && strIncludes u.roles "_admin" then
            branchClientsQuery clients cid
          else if cid != 0 then
            singleClientQuery clients cid
          else []
        | none => []

/-- `PermissionService.canUserManageClient(userId, clientId)`:
admin manages everything; otherwise requires the `can_manage_hierarchy`
flag, a truthy `client_id`, and the target among the accessible clients. -/
def canUserManageClient (userId clientId : Nat) (users : List UserRow)
    (clients : List ClientRow) : Bool :=
  if userId = 0 || clientId = 0 then false
  else
    match users.find? (fun u => u.id == userId) with
    | none => false
    | some u =>
      if u.roles = "admin" then true
      else if u.can_manage_hierarchy && truthyId u.client_id then
        (getAccessibleClients userId users clients).any
          fun c => c.id == clientId
      else false

/-! ### Concrete fixtures

The client tree of the spec's scenario:
root(id=1) → division(id=2, parent=1) → site(id=5, parent=2),
with a sibling site(id=6, parent=1); and a user per principal class. -/

/-- Root client node, id 1. -/
def cl1 : ClientRow := { id := 1, parent_client_id := none, hierarchy_path := [1], is_active := true }

/-- Division node, id 2, parent 1. -/
def cl2 : ClientRow := { id := 2, parent_client_id := some 1, hierarchy_path := [1, 2], is_active := true }

/-- Site node, id 5, parent 2. -/
def cl5 : ClientRow := { id := 5, parent_client_id := some 2, hierarchy_path := [1, 2, 5], is_active := true }

/-- Sibling site node, id 6, parent 1. -/
def cl6 : ClientRow := { id := 6, parent_client_id := some 1, hierarchy_path := [1, 6], is_active := true }

/-- The scenario's client table, in hierarchy-path order. -/
def clientsC : List ClientRow := [cl1, cl2, cl5, cl6]

/-- A deactivated division node. -/
def clInactive : ClientRow := { id := 2, parent_client_id := some 1, hierarchy_path := [1, 2], is_active := false }

/-- A client table holding one deactivated node. -/
def clientsWithInactive : List ClientRow := [cl1, clInactive]

/-- Branch-admin user: role name contains `_admin`, assigned to node 2. -/
def uBranch : UserRow := { id := 10, roles := "paddy_admin", client_id := some 2, can_manage_hierarchy := false }

/-- Admin user (with an assigned client, which must be ignored). -/
def uAdmin : UserRow := { id := 11, roles := "admin", client_id := some 2, can_manage_hierarchy := false }

/-- Regular user assigned to leaf node 5, flagged `can_manage_hierarchy`. -/
def uReg : UserRow := { id := 12, roles := "viewer", client_id := some 5, can_manage_hierarchy := true }

/-- Non-admin user with no assigned client. -/
def uNoClient : UserRow := { id := 13, roles := "viewer", client_id := none, can_manage_hierarchy := false }

/-- The concrete `users` table. -/
def usersC : List UserRow := [uBranch, uAdmin, uReg, uNoClient]

/-- Dashboard row for `iot_dashboard`. -/
def dashIot : DashboardRow := { id := 1, name := "iot_dashboard", display_name := "IoT Dashboard", is_active := true }

/-- Dashboard row for `motor_dashboard`. -/
def dashMotor : DashboardRow := { id := 2, name := "motor_dashboard", display_name := "Motor Dashboard", is_active := true }

/-- Grant of `iot_dashboard` to role `viewer`. -/
def rpViewerIot : RolePermRow := { role_name := "viewer", dashboard_id := 1, can_access := true, can_edit := false, can_delete := false }

/-- Permission matrix where `viewer` may access only `iot_dashboard`. -/
def pdbDemo : PermDb := { role_permissions := [rpViewerIot], dashboards := [dashIot, dashMotor] }

/-- Entry for role `user` on `motor_dashboard` with `can_access = false`
but `can_edit` and `can_delete` (inconsistently) true. -/
def rpUserMotorDenied : RolePermRow := { role_name := "user", dashboard_id := 2, can_access := false, can_edit := true, can_delete := true }

/-- Permission matrix holding only the inconsistent denied entry. -/
def pdbDenied : PermDb := { role_permissions := [rpUserMotorDenied], dashboards := [dashIot, dashMotor] }

/-- A later state of the matrix: `viewer` granted `motor_dashboard` instead. -/
def pdbAfterWrite : PermDb := { role_permissions := [{ role_name := "viewer", dashboard_id := 2, can_access := true, can_edit := false, can_delete := false }], dashboards := [dashIot, dashMotor] }

/-! ### Helper lemmas -/

/-- Property assignment leaves other keys untouched. -/
theorem permMapSet_apply_ne (m : PermMap) (k : String) (v : PermValue)
    (k' : String) (h : k' ≠ k) : permMapSet m k v k' = m k' := by
  simp [permMapSet, h]

/-- Folding `permInsert` over rows never covering `D` leaves `D` unmapped. -/
theorem foldl_permInsert_apply_none (rows : List JoinedPermRow) (acc : PermMap)
    (D : String) (hacc : acc D = none)
    (h : ∀ r ∈ rows, r.dashboard_name ≠ D) :
    (rows.foldl permInsert acc) D = none := by
  induction rows generalizing acc with
  | nil => exact hacc
  | cons r rs ih =>
    refine ih (permInsert acc r) ?_ fun r' hr' => h r' (List.mem_cons_of_mem _ hr')
    have hne : r.dashboard_name ≠ D := h r (List.mem_cons_self _ _)
    rw [permInsert, permMapSet_apply_ne _ _ _ _ fun hd => hne hd.symm, hacc]

/-- No joined row named `D` means `D` is unmapped in the permission object. -/
theorem buildPermissionObj_apply_none (rows : List JoinedPermRow) (D : String)
    (h : ∀ r ∈ rows, r.dashboard_name ≠ D) :
    buildPermissionObj rows D = none :=
  foldl_permInsert_apply_none rows emptyPermMap D rfl h

/-- A cache with no entry under the role's key yields no valid cached map. -/
theorem cacheLookup_none_of_apply_none {cache : PermCache} {R : String}
    {now : Nat} (h : cache (cacheKey R) = none) :
    cacheLookup cache R now = none := by
  simp [cacheLookup, h]

/-- On a cache miss with a successful read, `getUserPermissions` builds the
permission object from the joined rows, caches it, and reads storage once. -/
theorem getUserPermissions_miss_ok (R : String) (pdb : PermDb)
    (cache : PermCache) (now : Nat) (hR : R ≠ "")
    (hc : cacheLookup cache R now = none) :
    getUserPermissions R (Except.ok pdb) cache now =
      { permissions := buildPermissionObj (queryRolePermissions R pdb)
        cache := cacheSet cache (cacheKey R)
          { permissions := buildPermissionObj (queryRolePermissions R pdb)
            timestamp := now }
        storageReads := 1 } := by
  simp [getUserPermissions, hR, hc]

/-- Membership in the result of the `getUserPermissions` SQL join. -/
theorem mem_queryRolePermissions {row : JoinedPermRow} {R : String}
    {pdb : PermDb} :
    row ∈ queryRolePermissions R pdb ↔
      ∃ rp ∈ pdb.role_permissions, ∃ d ∈ pdb.dashboards,
        rp.dashboard_id = d.id ∧ rp.role_name = R ∧ d.is_active = true ∧
          rp.can_access = true ∧
          row = { dashboard_id := rp.dashboard_id, can_access := rp.can_access
                  dashboard_name := d.name
                  dashboard_display_name := d.display_name } := by
  simp only [queryRolePermissions, List.mem_flatMap, List.mem_map,
    List.mem_filter, Bool.and_eq_true, beq_iff_eq]
  constructor
  · rintro ⟨rp, hrp, d, ⟨hd, ⟨⟨⟨h1, h2⟩, h3⟩, h4⟩⟩, hrow⟩
    exact ⟨rp, hrp, d, hd, h1, h2, h3, h4, hrow.symm⟩
  · rintro ⟨rp, hrp, d, hd, h1, h2, h3, h4, hrow⟩
    exact ⟨rp, hrp, d, ⟨hd, ⟨⟨⟨h1, h2⟩, h3⟩, h4⟩⟩, hrow.symm⟩

/-- Core deny lemma: a non-admin role whose join produces no row named `D`
(and with no valid cache entry) is denied access to `D`. -/
theorem hasPermission_no_row (R D : String) (pdb : PermDb) (cache : PermCache)
    (now : Nat) (hadm : R ≠ "admin") (hc : cacheLookup cache R now = none)
    (hrows : ∀ row ∈ queryRolePermissions R pdb, row.dashboard_name ≠ D) :
    hasPermission R D (Except.ok pdb) cache now = false := by
  by_cases hR : R = ""
  · simp [hasPermission, hR]
  by_cases hD : D = ""
  · simp [hasPermission, hD]
  have hbuild := buildPermissionObj_apply_none _ D hrows
  simp [hasPermission, hR, hD, hadm,
    getUserPermissions_miss_ok R pdb cache now hR hc, hbuild]

/-- The last element of a list is a member of it. -/
theorem mem_of_getLast?_eq_some {α : Type} {l : List α} {a : α}
    (h : l.getLast? = some a) : a ∈ l := by
  have hd := List.dropLast_append_getLast? a h
  rw [← hd]
  simp

/-! ### Claim theorems -/

/-- Claim C1, amended: for every NONEMPTY dashboard name `D`,
`hasPermission("admin", D)` is true for every storage state, cache state
and time (so without consulting the permission matrix or cache); and for
every non-admin role `R` and dashboard `D` such that the matrix joins no
row named `D` for `R` (and the cache holds no valid entry for `R`),
`hasPermission(R, D)` is false.  The claim's universal quantification
over all dashboard names fails only at the empty name, where the
falsy-argument guard precedes the admin bypass. -/
theorem claim_C1_amended :
    (∀ (D : String) (db : Except String PermDb) (cache : PermCache) (now : Nat),
      D ≠ "" → hasPermission "admin" D db cache now = true)
    ∧ ∀ (R D : String) (pdb : PermDb) (cache : PermCache) (now : Nat),
        R ≠ "admin" → cacheLookup cache R now = none →
        (∀ row ∈ queryRolePermissions R pdb, row.dashboard_name ≠ D) →
        hasPermission R D (Except.ok pdb) cache now = false := by
  constructor
  · intro D db cache now hD
    simp [hasPermission, hD]
  · intro R D pdb cache now hadm hc hrows
    exact hasPermission_no_row R D pdb cache now hadm hc hrows

/-- Claim C1 is false exactly as stated: for the dashboard name `""` the
guard `if (!role || !dashboardName) return false` fires before the admin
bypass, so `hasPermission("admin", "")` is false, not true. -/
theorem claim_C1_counterexample :
    hasPermission "admin" "" (Except.ok pdbDemo) emptyPermCache 0 = false := by
  decide

/-- Witness for `claim_C1_amended` at concrete inputs. -/
theorem claim_C1_witness :
    hasPermission "admin" "motor_dashboard" (Except.ok pdbDemo) emptyPermCache 0 = true
    ∧ hasPermission "viewer" "motor_dashboard" (Except.ok pdbDemo) emptyPermCache 0 = false :=
  ⟨claim_C1_amended.1 "motor_dashboard" (Except.ok pdbDemo) emptyPermCache 0 (by decide),
   claim_C1_amended.2 "viewer" "motor_dashboard" pdbDemo emptyPermCache 0
     (by decide) rfl (by decide)⟩

/-- Claim C7, amended: when the storage read during a cache reload fails,
the error is CAUGHT inside `getUserPermissions` (the `catch` block logs
and returns `{}`): the call returns the empty permission map, leaves the
cache unchanged, and `hasPermission` then denies — indistinguishable from
a role with no permissions.  Nothing is propagated to the caller. -/
theorem claim_C7_amended (R e : String) (cache : PermCache) (now : Nat)
    (hR : R ≠ "") (hc : cacheLookup cache R now = none) :
    (getUserPermissions R (Except.error e) cache now).permissions = emptyPermMap
    ∧ (getUserPermissions R (Except.error e) cache now).storageReads = 1
    ∧ (getUserPermissions R (Except.error e) cache now).cache = cache
    ∧ ∀ D, R ≠ "admin" → hasPermission R D (Except.error e) cache now = false := by
  refine ⟨by simp [getUserPermissions, hR, hc], by simp [getUserPermissions, hR, hc],
    by simp [getUserPermissions, hR, hc], ?_⟩
  intro D hadm
  by_cases hD : D = ""
  · simp [hasPermission, hD]
  · simp [hasPermission, hR, hD, hadm, getUserPermissions, hc, emptyPermMap]

/-- Claim C7 is false as stated: with storage failing, the permission map
returned for role `user` equals the one returned from a successful read of
an empty matrix (the error is swallowed and converted into an empty
result, a deny), and `hasPermission` returns false normally instead of
propagating the failure. -/
theorem claim_C7_counterexample :
    (getUserPermissions "user" (Except.error "storage unavailable") emptyPermCache 0).permissions
      = (getUserPermissions "user"
          (Except.ok { role_permissions := [], dashboards := [] }) emptyPermCache 0).permissions
    ∧ hasPermission "user" "iot_dashboard" (Except.error "storage unavailable")
        emptyPermCache 0 = false :=
  ⟨rfl, by decide⟩

/-- Claim C6: when every matrix entry joining role `R` to dashboard `D`
has `can_access = false` — in particular the unique `(R, D)` entry, even
one whose `can_edit` and `can_delete` flags are (inconsistently) true —
`hasPermission(R, D)` is false for non-admin `R`: the
`rp.can_access = 1` filter of the reload query makes `can_access` the
sole gating flag. -/
theorem claim_C6 (R D : String) (pdb : PermDb) (cache : PermCache) (now : Nat)
    (rp : RolePermRow) (d : DashboardRow)
    (hadm : R ≠ "admin") (hc : cacheLookup cache R now = none)
    (hrp : rp ∈ pdb.role_permissions) (hrpR : rp.role_name = R)
    (hd : d ∈ pdb.dashboards) (hdid : d.id = rp.dashboard_id)
    (hdname : d.name = D) (hacc : rp.can_access = false)
    (hedit : rp.can_edit = true) (hdel : rp.can_delete = true)
    (huniq : ∀ rp' ∈ pdb.role_permissions, rp'.role_name = R →
      ∀ d' ∈ pdb.dashboards, d'.id = rp'.dashboard_id → d'.name = D →
        rp'.can_access = false) :
    hasPermission R D (Except.ok pdb) cache now = false := by
  refine hasPermission_no_row R D pdb cache now hadm hc ?_
  intro row hrow hname
  rcases mem_queryRolePermissions.mp hrow with ⟨rp', hrp', d', hd', h1, h2, h3, h4, h5⟩
  have hDname : d'.name = D := by rw [h5] at hname; exact hname
  have hfalse := huniq rp' hrp' h2 d' hd' h1.symm hDname
  rw [hfalse] at h4
  exact absurd h4 (by decide)

/-- Witness for `claim_C6` at the concrete inconsistent entry. -/
theorem claim_C6_witness :
    hasPermission "user" "motor_dashboard" (Except.ok pdbDenied) emptyPermCache 0 = false := by
  exact claim_C6 "user" "motor_dashboard" pdbDenied emptyPermCache 0
    rpUserMotorDenied dashMotor (by decide) rfl (by decide) rfl (by decide)
    rfl rfl rfl rfl rfl (by decide)

/-- Claim C8: a first `getUserPermissions(R)` call that misses the cache
and reads successfully populates the cache; a second call within the
5-minute TTL window of that load returns the identical cached map with no
storage read and no cache change (whatever the storage would now return);
a call at or after TTL expiry reads storage again and returns the
permission object built from the CURRENT matrix state, reflecting any
intervening write. -/
theorem claim_C8 (R : String) (pdb1 pdb3 : PermDb) (db2 : Except String PermDb)
    (cache0 : PermCache) (t1 t2 t3 : Nat)
    (hR : R ≠ "") (hmiss : cache0 (cacheKey R) = none)
    (hfresh : t2 - t1 < cacheTimeout) (hexp : cacheTimeout ≤ t3 - t1) :
    ((getUserPermissions R db2 (getUserPermissions R (Except.ok pdb1) cache0 t1).cache t2).permissions
        = (getUserPermissions R (Except.ok pdb1) cache0 t1).permissions
      ∧ (getUserPermissions R db2 (getUserPermissions R (Except.ok pdb1) cache0 t1).cache t2).storageReads = 0
      ∧ (getUserPermissions R db2 (getUserPermissions R (Except.ok pdb1) cache0 t1).cache t2).cache
        = (getUserPermissions R (Except.ok pdb1) cache0 t1).cache)
    ∧ (getUserPermissions R (Except.ok pdb3) (getUserPermissions R (Except.ok pdb1) cache0 t1).cache t3).permissions
        = buildPermissionObj (queryRolePermissions R pdb3)
    ∧ (getUserPermissions R (Except.ok pdb3) (getUserPermissions R (Except.ok pdb1) cache0 t1).cache t3).storageReads = 1 := by
  have h1 := getUserPermissions_miss_ok R pdb1 cache0 t1 hR
    (cacheLookup_none_of_apply_none hmiss)
  have hnot : ¬ (t3 - t1 < cacheTimeout) := not_lt.mpr hexp
  rw [h1]
  refine ⟨⟨?_, ?_, ?_⟩, ?_, ?_⟩ <;>
    simp [getUserPermissions, cacheLookup, cacheSet, hR, hfresh, hnot]

/-- Witness for `claim_C8`: first read at t=0, hit at t=100 even though the
matrix changed, fresh read at t=300000 reflecting the write. -/
theorem claim_C8_witness :
    ((getUserPermissions "viewer" (Except.ok pdbAfterWrite) (getUserPermissions "viewer" (Except.ok pdbDemo) emptyPermCache 0).cache 100).permissions
        = (getUserPermissions "viewer" (Except.ok pdbDemo) emptyPermCache 0).permissions
      ∧ (getUserPermissions "viewer" (Except.ok pdbAfterWrite) (getUserPermissions "viewer" (Except.ok pdbDemo) emptyPermCache 0).cache 100).storageReads = 0
      ∧ (getUserPermissions "viewer" (Except.ok pdbAfterWrite) (getUserPermissions "viewer" (Except.ok pdbDemo) emptyPermCache 0).cache 100).cache
        = (getUserPermissions "viewer" (Except.ok pdbDemo) emptyPermCache 0).cache)
    ∧ (getUserPermissions "viewer" (Except.ok pdbAfterWrite) (getUserPermissions "viewer" (Except.ok pdbDemo) emptyPermCache 0).cache 300000).permissions
        = buildPermissionObj (queryRolePermissions "viewer" pdbAfterWrite)
    ∧ (getUserPermissions "viewer" (Except.ok pdbAfterWrite) (getUserPermissions "viewer" (Except.ok pdbDemo) emptyPermCache 0).cache 300000).storageReads = 1 :=
  claim_C8 "viewer" pdbDemo pdbAfterWrite (Except.ok pdbAfterWrite)
    emptyPermCache 0 100 300000 (by decide) rfl (by decide) (by decide)

/-- Claim C9: after `clearCache(R)` the next `getUserPermissions(R)` call
performs a storage read — at ANY time, in particular within the old TTL
window — and returns the permission object built from the current
persisted matrix; and `clearCache()` with no argument evicts every cached
entry. -/
theorem claim_C9 (R : String) (pdb : PermDb) (cache : PermCache) (now : Nat)
    (hR : R ≠ "") :
    ((getUserPermissions R (Except.ok pdb) (clearCache (some R) cache) now).permissions
        = buildPermissionObj (queryRolePermissions R pdb)
      ∧ (getUserPermissions R (Except.ok pdb) (clearCache (some R) cache) now).storageReads = 1)
    ∧ ∀ k, clearCache none cache k = none := by
  have hc : cacheLookup (clearCache (some R) cache) R now = none := by
    apply cacheLookup_none_of_apply_none
    simp [clearCache]
  rw [getUserPermissions_miss_ok R pdb (clearCache (some R) cache) now hR hc]
  exact ⟨⟨rfl, rfl⟩, fun k => rfl⟩

/-- Witness for `claim_C9`: invalidation of role `viewer` right after a
cache-populating read at t=0, re-read at t=1 (inside the old TTL window)
reflecting the administratively written matrix. -/
theorem claim_C9_witness :
    ((getUserPermissions "viewer" (Except.ok pdbAfterWrite)
        (clearCache (some "viewer") (getUserPermissions "viewer" (Except.ok pdbDemo) emptyPermCache 0).cache) 1).permissions
        = buildPermissionObj (queryRolePermissions "viewer" pdbAfterWrite)
      ∧ (getUserPermissions "viewer" (Except.ok pdbAfterWrite)
        (clearCache (some "viewer") (getUserPermissions "viewer" (Except.ok pdbDemo) emptyPermCache 0).cache) 1).storageReads = 1)
    ∧ ∀ k, clearCache none (getUserPermissions "viewer" (Except.ok pdbDemo) emptyPermCache 0).cache k = none :=
  claim_C9 "viewer" pdbAfterWrite
    (getUserPermissions "viewer" (Except.ok pdbDemo) emptyPermCache 0).cache 1 (by decide)

/-- Witness for `claim_C7_amended` at concrete inputs. -/
theorem claim_C7_witness :
    (getUserPermissions "viewer" (Except.error "down") emptyPermCache 0).permissions = emptyPermMap
    ∧ (getUserPermissions "viewer" (Except.error "down") emptyPermCache 0).storageReads = 1
    ∧ (getUserPermissions "viewer" (Except.error "down") emptyPermCache 0).cache = emptyPermCache
    ∧ hasPermission "viewer" "iot_dashboard" (Except.error "down") emptyPermCache 0 = false := by
  obtain ⟨h1, h2, h3, h4⟩ := claim_C7_amended "viewer" "down" emptyPermCache 0 (by decide) rfl
  exact ⟨h1, h2, h3, h4 "iot_dashboard" (by decide)⟩

/-- Claim C2, amended: for an admin principal `getAccessibleClients`
returns the WHOLE client table — regardless of the principal's
`assigned_client_id`, and including deactivated rows: the admin branch
runs `SELECT ... FROM client` with no `is_active` filter (the filter
appears only in the branch-admin and regular branches). -/
theorem claim_C2_amended (userId : Nat) (users : List UserRow)
    (clients : List ClientRow) (u : UserRow)
    (h0 : userId ≠ 0)
    (hfind : users.find? (fun x => x.id == userId) = some u)
    (hadmin : u.roles = "admin") :
    getAccessibleClients userId users clients = clients := by
  simp [getAccessibleClients, h0, hfind, hadmin]

/-- Claim C2 is false as stated: with the admin user (id 11) and a client
table holding the deactivated node `clInactive`, the result contains
`clInactive`, so deactivated nodes are NOT excluded for admins. -/
theorem claim_C2_counterexample :
    clInactive ∈ getAccessibleClients 11 usersC clientsWithInactive
    ∧ clInactive.is_active = false := by
  decide

/-- Witness for `claim_C2_amended`: the admin user with
`assigned_client_id = 2` still gets the whole table. -/
theorem claim_C2_witness :
    getAccessibleClients 11 usersC clientsC = clientsC :=
  claim_C2_amended 11 usersC clientsC uAdmin (by decide) rfl rfl

/-- Claim C4: a regular principal (role neither `admin` nor containing
`_admin`) assigned to an active client `C` gets exactly the row of `C`:
membership in the result is equivalent to being `C`'s row, so neither
descendants nor `C`'s parent or siblings ever appear. -/
theorem claim_C4 (userId : Nat) (users : List UserRow)
    (clients : List ClientRow) (u : UserRow) (C : Nat) (cRow : ClientRow)
    (h0 : userId ≠ 0)
    (hfind : users.find? (fun x => x.id == userId) = some u)
    (hadm : u.roles ≠ "admin")
    (hbr : strIncludes u.roles "_admin" = false)
    (hcid : u.client_id = some C) (hC : C ≠ 0)
    (hmem : cRow ∈ clients) (hid : cRow.id = C) (hact : cRow.is_active = true)
    (huni : ∀ x ∈ clients, x.id = C → x = cRow) :
    ∀ x, x ∈ getAccessibleClients userId users clients ↔ x = cRow := by
  intro x
  have hquery : getAccessibleClients userId users clients = singleClientQuery clients C := by
    simp [getAccessibleClients, h0, hfind, hadm, hbr, hcid, hC]
  rw [hquery]
  simp only [singleClientQuery, List.mem_filter, Bool.and_eq_true, beq_iff_eq]
  constructor
  · rintro ⟨hxmem, hxid, _⟩
    exact huni x hxmem hxid
  · rintro rfl
    exact ⟨hmem, hid, hact⟩

/-- Witness for `claim_C4`: the `viewer` at leaf 5 gets node 5 and not the
root node 1 (5's grandparent). -/
theorem claim_C4_witness :
    (cl5 ∈ getAccessibleClients 12 usersC clientsC ↔ cl5 = cl5)
    ∧ (cl1 ∈ getAccessibleClients 12 usersC clientsC ↔ cl1 = cl5) :=
  ⟨claim_C4 12 usersC clientsC uReg 5 cl5 (by decide) rfl (by decide) (by decide)
      rfl (by decide) (by decide) rfl rfl (by decide) cl5,
   claim_C4 12 usersC clientsC uReg 5 cl5 (by decide) rfl (by decide) (by decide)
      rfl (by decide) (by decide) rfl rfl (by decide) cl1⟩

/-- Claim C5: a principal with a non-admin role and no assigned client id
gets the empty list — a normal return of the function (the fail-closed
terminal "no data access" state), not an error. -/
theorem claim_C5 (userId : Nat) (users : List UserRow)
    (clients : List ClientRow) (u : UserRow)
    (h0 : userId ≠ 0)
    (hfind : users.find? (fun x => x.id == userId) = some u)
    (hadm : u.roles ≠ "admin")
    (hnone : u.client_id = none) :
    getAccessibleClients userId users clients = [] := by
  simp [getAccessibleClients, h0, hfind, hadm, hnone]

/-- Witness for `claim_C5` at the concrete clientless viewer. -/
theorem claim_C5_witness :
    getAccessibleClients 13 usersC clientsC = [] :=
  claim_C5 13 usersC clientsC uNoClient (by decide) rfl (by decide) rfl

/-- Claim C3: for a branch-admin principal (role containing `_admin`)
assigned to client `C`, under the client-tree invariants — every node's
hierarchy chain ends in its own id, and any chain passing through `C`
extends `C`'s own chain — the result is exactly the closed subtree rooted
at `C`: the active nodes that are `C` itself or have `C` as an ancestor in
their hierarchy path.  In the concrete tree root(1) → division(2) →
site(5) with sibling site(6), the branch-admin at node 2 gets exactly
{2, 5}, and node 6 is excluded. -/
theorem claim_C3 :
    (∀ (userId : Nat) (users : List UserRow) (clients : List ClientRow)
        (u : UserRow) (C : Nat) (cRow : ClientRow),
      userId ≠ 0 →
      users.find? (fun x => x.id == userId) = some u →
      u.roles ≠ "admin" →
      strIncludes u.roles "_admin" = true →
      u.client_id = some C → C ≠ 0 →
      clients.find? (fun c => c.id == C) = some cRow →
      (∀ x ∈ clients, x.hierarchy_path.getLast? = some x.id) →
      (∀ x ∈ clients, C ∈ x.hierarchy_path →
        cRow.hierarchy_path.isPrefixOf x.hierarchy_path = true) →
      ∀ x, x ∈ getAccessibleClients userId users clients ↔
        (x ∈ clients ∧ x.is_active = true ∧
          (x.id = C ∨ C ∈ x.hierarchy_path.dropLast)))
    ∧ (getAccessibleClients 10 usersC clientsC).map (fun c => c.id) = [2, 5] := by
  constructor
  · intro userId users clients u C cRow h0 hfind hadm hbr hcid hC hfindC hlast hcons x
    have hquery : getAccessibleClients userId users clients = branchClientsQuery clients C := by
      simp [getAccessibleClients, h0, hfind, hadm, hbr, hcid, hC]
    rw [hquery]
    rw [branchClientsQuery, hfindC]
    have hCmem : cRow ∈ clients := List.mem_of_find?_eq_some hfindC
    have hCid : cRow.id = C := by
      have := List.find?_some hfindC
      simpa using this
    have hClast : cRow.hierarchy_path.getLast? = some C := by
      rw [← hCid]
      exact hlast cRow hCmem
    simp only [List.mem_filter, Bool.and_eq_true, Bool.or_eq_true, beq_iff_eq]
    constructor
    · rintro ⟨hxmem, hxact, hdisj⟩
      refine ⟨hxmem, hxact, ?_⟩
      rcases hdisj with hxC | hpre
      · exact Or.inl hxC
      by_cases hxC : x.id = C
      · exact Or.inl hxC
      right
      obtain ⟨t, ht⟩ := List.isPrefixOf_iff_prefix.mp hpre
      rcases eq_or_ne t [] with rfl | htne
      · rw [List.append_nil] at ht
        have hxlast := hlast x hxmem
        rw [← ht, hClast] at hxlast
        exact absurd (Option.some.inj hxlast).symm hxC
      · rw [← ht, List.dropLast_append_of_ne_nil _ htne]
        exact List.mem_append_left _ (mem_of_getLast?_eq_some hClast)
    · rintro ⟨hxmem, hxact, hdisj⟩
      refine ⟨hxmem, hxact, ?_⟩
      rcases hdisj with hxC | hanc
      · exact Or.inl hxC
      · exact Or.inr (hcons x hxmem (List.mem_of_mem_dropLast hanc))
  · decide

/-- Witness for `claim_C3` at the concrete tree: site 5 is in the
branch-admin's accessible set because division 2 is its ancestor. -/
theorem claim_C3_witness :
    cl5 ∈ getAccessibleClients 10 usersC clientsC ↔
      (cl5 ∈ clientsC ∧ cl5.is_active = true ∧
        (cl5.id = 2 ∨ 2 ∈ cl5.hierarchy_path.dropLast)) :=
  claim_C3.1 10 usersC clientsC uBranch 2 cl2 (by decide) rfl (by decide)
    (by decide) rfl (by decide) rfl (by decide) (by decide) cl5

/-- Claim C10: `getAccessibleClients` selects the subtree (branch-admin)
case purely by the `'_admin'` substring test on the role name together
with a truthy `assigned_client_id`: a role without the substring never
gets subtree expansion even when flagged `can_manage_hierarchy`, any role
with the substring always does, and the `can_manage_hierarchy` flag is
consulted only by `canUserManageClient`, which denies non-admins whose
flag is false. -/
theorem claim_C10 :
    (∀ (userId : Nat) (users : List UserRow) (clients : List ClientRow)
        (u : UserRow) (C : Nat),
      userId ≠ 0 → users.find? (fun x => x.id == userId) = some u →
      u.roles ≠ "admin" → strIncludes u.roles "_admin" = false →
      u.can_manage_hierarchy = true →
      u.client_id = some C → C ≠ 0 →
      getAccessibleClients userId users clients = singleClientQuery clients C)
    ∧ (∀ (userId : Nat) (users : List UserRow) (clients : List ClientRow)
        (u : UserRow) (C : Nat),
      userId ≠ 0 → users.find? (fun x => x.id == userId) = some u →
      strIncludes u.roles "_admin" = true →
      u.client_id = some C → C ≠ 0 →
      getAccessibleClients userId users clients = branchClientsQuery clients C)
    ∧ ∀ (userId clientId : Nat) (users : List UserRow)
        (clients : List ClientRow) (u : UserRow),
      users.find? (fun x => x.id == userId) = some u →
      u.roles ≠ "admin" → u.can_manage_hierarchy = false →
      canUserManageClient userId clientId users clients = false := by
  refine ⟨?_, ?_, ?_⟩
  · intro userId users clients u C h0 hfind hadm hbr hflag hcid hC
    simp [getAccessibleClients, h0, hfind, hadm, hbr, hcid, hC]
  · intro userId users clients u C h0 hfind hbr hcid hC
    have hadm : u.roles ≠ "admin" := by
      intro h
      rw [h] at hbr
      exact absurd hbr (by decide)
    simp [getAccessibleClients, h0, hfind, hadm, hbr, hcid, hC]
  · intro userId clientId users clients u hfind hadm hflag
    simp [canUserManageClient, hfind, hadm, hflag]

/-- Witness for `claim_C10`: the flagged `viewer` still gets only its own
node, the unflagged `paddy_admin` still gets the subtree, and the
unflagged `paddy_admin` cannot manage its own node 2. -/
theorem claim_C10_witness :
    getAccessibleClients 12 usersC clientsC = singleClientQuery clientsC 5
    ∧ getAccessibleClients 10 usersC clientsC = branchClientsQuery clientsC 2
    ∧ canUserManageClient 10 2 usersC clientsC = false :=
  ⟨claim_C10.1 12 usersC clientsC uReg 5 (by decide) rfl (by decide) (by decide)
      rfl rfl (by decide),
   claim_C10.2.1 10 usersC clientsC uBranch 2 (by decide) rfl (by decide)
      rfl (by decide),
   claim_C10.2.2 10 2 usersC clientsC uBranch rfl (by decide) rfl⟩

end GenVolt
